import Mathlib

/-!
Shallow embedding of the MONGODB-OIDC and PLAIN authentication mechanisms
from x/mongo/driver/auth (oidc.go, plain.go), together with theorems
checking the specification's claims against the code.

Modelling conventions:
* Go `uint64` is modelled as `Nat` with arithmetic taken modulo `2 ^ 64`
  (`uint64Mod`); Go's `++` on `uint64` wraps, so the increment of
  `tokenGenID` is `(g + 1) % uint64Mod`.
* Go errors are modelled by the inductive `Err`; `newAuthError(msg, inner)`
  becomes `Err.authError msg inner`, `fmt.Errorf` without `%w` becomes
  `Err.fmtErr`, and `fmt.Errorf` with `%w` becomes `Err.wrapErr`.
* `context.Context`, mutexes, `time.Sleep` and the HTTP client are outside
  the pure model: the mutex is represented by the functions being atomic
  state transformers, the sleep is a pure no-op, and the Azure metadata
  callback produced by `getAzureOIDCCallback` is threaded as an abstract
  parameter (no claim depends on its HTTP body).
* The Go `map[string]string` of mechanism properties is modelled as an
  association list; a `nil` map and an empty map are indistinguishable
  through lookups, so the `cred.Props != nil` guard collapses into the
  empty-list case.
-/

/-- Modulus of Go's `uint64` arithmetic. -/
def uint64Mod : Nat := 2 ^ 64

/-- Mechanism name constant `MongoDBOIDC` from oidc.go. -/
def MongoDBOIDC : String := "MONGODB-OIDC"

/-- Mechanism name constant `PLAIN` from plain.go. -/
def PLAIN : String := "PLAIN"

/-- Property key `environmentProp` from oidc.go. -/
def environmentProp : String := "ENVIRONMENT"

/-- Property key `resourceProp` from oidc.go. -/
def resourceProp : String := "TOKEN_RESOURCE"

/-- Constant `azureEnvironmentValue` from oidc.go. -/
def azureEnvironmentValue : String := "azure"

/-- Constant `gcpEnvironmentValue` from oidc.go. -/
def gcpEnvironmentValue : String := "gcp"

/-- Constant `testEnvironmentValue` from oidc.go. -/
def testEnvironmentValue : String := "test"

/-- Constant `apiVersion` from oidc.go. -/
def apiVersion : Nat := 1

/-- Model of Go error values produced by the auth package. -/
inductive Err where
  /-- `newAuthError(message, wrapped)`: an auth error with an optional cause. -/
  | authError (message : String) (wrapped : Option Err)
  /-- `fmt.Errorf` without error wrapping. -/
  | fmtErr (message : String)
  /-- `fmt.Errorf` with a `%w`-wrapped inner error. -/
  | wrapErr (message : String) (inner : Err)

/-- `driver.IDPInfo`: identity-provider metadata, reserved for the human flow. -/
structure IDPInfo where
  issuer : String
  clientID : String
  requestScopes : List String
deriving DecidableEq

/-- `driver.OIDCCredential`: the value returned by an OIDC callback. -/
structure OIDCCredential where
  accessToken : String
  refreshToken : Option String
  expiresAt : Option Int
deriving DecidableEq

/-- `driver.OIDCArgs`: the arguments passed to an OIDC callback. -/
structure OIDCArgs where
  version : Nat
  idpInfo : Option IDPInfo
  refreshToken : Option String
deriving DecidableEq

/-- `driver.OIDCCallback`: a token-acquisition callback. The Go callback
receives a context and returns `(cred, err)`; the pure model returns
`Except Err OIDCCredential`. -/
def OIDCCallback : Type := OIDCArgs → Except Err OIDCCredential

/-- The slice of `driver.Connection` the authenticator uses: the per-connection
OIDC token generation slot (`OIDCTokenGenID` / `SetOIDCTokenGenID`). -/
structure Connection where
  oidcTokenGenID : Nat
deriving DecidableEq

/-- The `Cred` fields consumed by `newOIDCAuthenticator` and
`newPlainAuthenticator`. -/
structure Cred where
  username : String
  password : String
  props : List (String × String)
  oidcMachineCallback : Option OIDCCallback
  oidcHumanCallback : Option OIDCCallback

/-- Association-list lookup standing in for Go map indexing `props[key]`. -/
def lookupProp (props : List (String × String)) (key : String) : Option String :=
  match props with
  | [] => none
  | (k, v) :: rest => if k = key then some v else lookupProp rest key

/-- `OIDCAuthenticator`: the lock-guarded mutable state plus the immutable
configuration fields. The `httpClient` field is dropped (it only feeds the
Azure callback, which is abstract here). -/
structure OIDCAuthenticator where
  authMechanismProperties : List (String × String)
  oidcMachineCallback : Option OIDCCallback
  oidcHumanCallback : Option OIDCCallback
  userName : String
  accessToken : String
  refreshToken : Option String
  idpInfo : Option IDPInfo
  tokenGenID : Nat

/-- `strings.ToLower`: Go lower-cases the full Unicode range; this model
lower-cases character-wise (ASCII), which agrees with Go on the ASCII inputs
the code compares against ("azure", "gcp", "test"). -/
def asciiToLower (s : String) : String :=
  ⟨s.data.map Char.toLower⟩

/-- `newOIDCAuthenticator(cred, httpClient)`: validates the credential and
builds the authenticator. The Go `switch strings.ToLower(env)` uses
`fallthrough` from the `azure` and `gcp` cases into the `test` case, so
`azure`/`gcp` check the resource property and then the callback check, while
`test` checks only the callbacks; unrecognized values check nothing. -/
def newOIDCAuthenticator (cred : Cred) : Except Err OIDCAuthenticator :=
  if cred.password ≠ "" then
    .error (.fmtErr ("password cannot be specified for " ++ MongoDBOIDC))
  else
    let envCheck : Except Err Unit :=
      match lookupProp cred.props environmentProp with
      | none => .ok ()
      | some env =>
        let lowered := asciiToLower env
        if lowered = azureEnvironmentValue ∨ lowered = gcpEnvironmentValue then
          if (lookupProp cred.props resourceProp).isNone then
            .error (.fmtErr (resourceProp ++ " must be specified for " ++ env
              ++ " " ++ environmentProp))
          else if cred.oidcMachineCallback.isSome ∨ cred.oidcHumanCallback.isSome then
            .error (.fmtErr ("OIDC callbacks are not allowed for " ++ env
              ++ " " ++ environmentProp))
          else .ok ()
        else if lowered = testEnvironmentValue then
          if cred.oidcMachineCallback.isSome ∨ cred.oidcHumanCallback.isSome then
            .error (.fmtErr ("OIDC callbacks are not allowed for " ++ env
              ++ " " ++ environmentProp))
          else .ok ()
        else .ok ()
    match envCheck with
    | .error e => .error e
    | .ok () => .ok
      { authMechanismProperties := cred.props
        oidcMachineCallback := cred.oidcMachineCallback
        oidcHumanCallback := cred.oidcHumanCallback
        userName := cred.username
        accessToken := ""
        refreshToken := none
        idpInfo := none
        tokenGenID := 0 }

/-- A BSON document restricted to string fields, as produced by
`bsoncore.NewDocumentBuilder().AppendString(...)`; document encoding itself is
out of scope for the spec, so a document is its field list. -/
def StrDoc : Type := List (String × String)

/-- `jwtStepRequest(accessToken)`: the single-field document
mapping "jwt" to the access token. -/
def jwtStepRequest (accessToken : String) : StrDoc :=
  [("jwt", accessToken)]

/-- `oidcOneStep`: the one-step SASL client used for OIDC. -/
structure oidcOneStep where
  userName : String
  accessToken : String
deriving DecidableEq

/-- `oidcOneStep.Start`: mechanism name and first payload (the error result
in Go is always nil). -/
def oidcOneStep.Start (oos : oidcOneStep) : String × StrDoc :=
  (MongoDBOIDC, jwtStepRequest oos.accessToken)

/-- `oidcOneStep.Next`: any server challenge is an error. -/
def oidcOneStep.Next (_ : oidcOneStep) (_ : StrDoc) : Except Err StrDoc :=
  .error (.authError "unexpected step in OIDC authentication" none)

/-- `oidcOneStep.Completed`: always true. -/
def oidcOneStep.Completed (_ : oidcOneStep) : Bool :=
  true

/-- `OIDCAuthenticator.invalidateAccessToken(conn)`: fenced invalidation.
Clears the cached token and zeroes the connection slot only when the
connection's recorded generation is 0 or at least the authenticator's. -/
def OIDCAuthenticator.invalidateAccessToken (oa : OIDCAuthenticator)
    (conn : Connection) : OIDCAuthenticator × Connection :=
  let tokenGenID := conn.oidcTokenGenID
  if tokenGenID = 0 ∨ tokenGenID ≥ oa.tokenGenID then
    ({ oa with accessToken := "" }, { conn with oidcTokenGenID := 0 })
  else
    (oa, conn)

/-- Result of `getAccessToken`: the returned `(string, error)` pair, the
post-state of the authenticator and connection, and how many times the
callback was invoked. -/
structure GetTokenResult where
  result : Except Err String
  oa : OIDCAuthenticator
  conn : Connection
  callbackCalls : Nat

/-- `OIDCAuthenticator.getAccessToken(ctx, conn, args, callback)`: the whole
body runs under the lock. Returns the cached token if non-empty; otherwise
invokes the callback once and, on success, stores the token, increments the
generation counter (uint64 wrap), records it on the connection, and retains a
provided refresh token. -/
def OIDCAuthenticator.getAccessToken (oa : OIDCAuthenticator) (conn : Connection)
    (args : OIDCArgs) (callback : OIDCCallback) : GetTokenResult :=
  if oa.accessToken ≠ "" then
    { result := .ok oa.accessToken, oa := oa, conn := conn, callbackCalls := 0 }
  else
    match callback args with
    | .error e =>
      { result := .error e, oa := oa, conn := conn, callbackCalls := 1 }
    | .ok cred =>
      let newGen := (oa.tokenGenID + 1) % uint64Mod
      let oa' := { oa with
        accessToken := cred.accessToken
        tokenGenID := newGen
        refreshToken := match cred.refreshToken with
          | some rt => some rt
          | none => oa.refreshToken }
      { result := .ok cred.accessToken
        oa := oa'
        conn := { conn with oidcTokenGenID := newGen }
        callbackCalls := 1 }

/-- `OIDCAuthenticator.providerCallback()`: maps the ENVIRONMENT property to a
built-in machine callback. The comparison here is case-sensitive (`switch env`),
unlike the lower-casing validation in `newOIDCAuthenticator`. The Azure branch
returns `getAzureOIDCCallback(userName, resource, httpClient)`; that callback's
HTTP behaviour is irrelevant to the claims, so it is threaded through as the
abstract parameter `azureCb`. The GCP branch in the source returns a non-nil
placeholder callback together with a non-nil error. -/
def OIDCAuthenticator.providerCallback (oa : OIDCAuthenticator)
    (azureCb : String → String → OIDCCallback) :
    Option OIDCCallback × Option Err :=
  match lookupProp oa.authMechanismProperties environmentProp with
  | none => (none, none)
  | some env =>
    if env = azureEnvironmentValue then
      match lookupProp oa.authMechanismProperties resourceProp with
      | none =>
        (none, some (.authError (resourceProp ++ " must be specified for Azure OIDC") none))
      | some resource => (some (azureCb oa.userName resource), none)
    else if env = gcpEnvironmentValue then
      (some (fun _ =>
          .error (.fmtErr ("automatic token acquisition for " ++ env
            ++ " not implemented yet"))),
        some (.fmtErr ("automatic token acquisition for " ++ env
          ++ " not implemented yet")))
    else
      (none, some (.fmtErr (environmentProp ++ " " ++ env
        ++ " not supported for MONGODB-OIDC")))

/-- Modelled from the spec: `ConductSaslConversation` (the generic conversation
engine of §4.1) is outside the analysed source slice; only its callers are
present. For the OIDC mechanism every exchange is a one-step conversation fully
determined by the `oidcOneStep` client it is run with, so the engine is
modelled as an outcome oracle from that client to an optional error
(`none` = success, errors surface unchanged). -/
def Conduct : Type := oidcOneStep → Option Err

/-- Result of `Auth` (and helpers): the returned error (none = success), the
post-state, the number of SASL conversation exchanges performed, and the number
of OIDC callback invocations. -/
structure AuthRes where
  result : Option Err
  oa : OIDCAuthenticator
  conn : Connection
  convCount : Nat
  callbackCalls : Nat

/-- `OIDCAuthenticator.doAuthHuman`: the human flow is unimplemented and
always fails (the `%v`-formatted `idpInfo` in the Go message is elided). -/
def OIDCAuthenticator.doAuthHuman (oa : OIDCAuthenticator) (conn : Connection)
    (convSoFar : Nat) : AuthRes :=
  { result := some (.authError "OIDC" (some (.fmtErr "human flow not implemented yet")))
    oa := oa, conn := conn, convCount := convSoFar, callbackCalls := 0 }

/-- `OIDCAuthenticator.doAuthMachine(ctx, cfg, machineCallback)`: acquire a
token via `getAccessToken` (the 60s ceiling timeout on the callback context is
outside the pure model), propagate acquisition errors, then run the one-step
conversation with the acquired token (the `oidcOneStep` is built without a
user name, as in the source). -/
def OIDCAuthenticator.doAuthMachine (oa : OIDCAuthenticator) (conn : Connection)
    (conduct : Conduct) (machineCallback : OIDCCallback) (convSoFar : Nat) :
    AuthRes :=
  let r := oa.getAccessToken conn ⟨apiVersion, none, none⟩ machineCallback
  match r.result with
  | .error e =>
    { result := some e, oa := r.oa, conn := r.conn, convCount := convSoFar,
      callbackCalls := r.callbackCalls }
  | .ok accessToken =>
    { result := conduct ⟨"", accessToken⟩, oa := r.oa, conn := r.conn,
      convCount := convSoFar + 1, callbackCalls := r.callbackCalls }

/-- The dispatch tail of `OIDCAuthenticator.Auth` (the code after the
cached-token attempt): human callback first, then a user machine callback,
then the provider-resolved callback, else the no-callback error. -/
def OIDCAuthenticator.authDispatch (oa : OIDCAuthenticator) (conn : Connection)
    (conduct : Conduct) (azureCb : String → String → OIDCCallback)
    (convSoFar : Nat) : AuthRes :=
  match oa.oidcHumanCallback with
  | some _ => oa.doAuthHuman conn convSoFar
  | none =>
    match oa.oidcMachineCallback with
    | some cb => oa.doAuthMachine conn conduct cb convSoFar
    | none =>
      match oa.providerCallback azureCb with
      | (_, some e) =>
        { result := some (.wrapErr "error getting built-in OIDC provider" e)
          oa := oa, conn := conn, convCount := convSoFar, callbackCalls := 0 }
      | (some cb, none) => oa.doAuthMachine conn conduct cb convSoFar
      | (none, none) =>
        { result := some (.authError "no OIDC callback provided" none)
          oa := oa, conn := conn, convCount := convSoFar, callbackCalls := 0 }

/-- `OIDCAuthenticator.Auth(ctx, cfg)`: snapshot the cached token under the
lock; if non-empty try a one-step conversation with it, returning on success;
on failure invalidate (fenced) and sleep (a no-op here) before falling through
to the dispatch tail. The nil-`cfg` guard is outside the model (the connection
is passed directly). -/
def OIDCAuthenticator.Auth (oa : OIDCAuthenticator) (conn : Connection)
    (conduct : Conduct) (azureCb : String → String → OIDCCallback) : AuthRes :=
  let cachedAccessToken := oa.accessToken
  if cachedAccessToken ≠ "" then
    match conduct ⟨oa.userName, cachedAccessToken⟩ with
    | none =>
      { result := none, oa := oa, conn := conn, convCount := 1, callbackCalls := 0 }
    | some _ =>
      let p := oa.invalidateAccessToken conn
      p.1.authDispatch p.2 conduct azureCb 1
  else
    oa.authDispatch conn conduct azureCb 0

/-- `OIDCAuthenticator.Reauth(ctx, cfg)`: invalidate (fenced), then `Auth`. -/
def OIDCAuthenticator.Reauth (oa : OIDCAuthenticator) (conn : Connection)
    (conduct : Conduct) (azureCb : String → String → OIDCCallback) : AuthRes :=
  let p := oa.invalidateAccessToken conn
  p.1.Auth p.2 conduct azureCb

/-- Modelled from the spec: the `SpeculativeConversation` object built by
`newSaslConversation(client, source, speculative)` (sasl.go is outside the
source slice) — a pre-built conversation carrying the mechanism client, the
source namespace, and the speculative flag. -/
structure SaslConversation where
  client : oidcOneStep
  source : String
  speculative : Bool

/-- `OIDCAuthenticator.CreateSpeculativeConversation()`: under the lock, skip
(return nothing, no error) when no token is cached; otherwise return the
pre-built one-step conversation carrying the cached token. -/
def OIDCAuthenticator.CreateSpeculativeConversation (oa : OIDCAuthenticator) :
    Option SaslConversation :=
  let accessToken := oa.accessToken
  if accessToken = "" then
    none
  else
    some { client := { userName := "", accessToken := accessToken }
           source := "$external", speculative := true }

/-- `PlainAuthenticator` from plain.go. -/
structure PlainAuthenticator where
  username : String
  password : String
deriving DecidableEq

/-- `newPlainAuthenticator(cred, httpClient)`. -/
def newPlainAuthenticator (cred : Cred) : PlainAuthenticator :=
  { username := cred.username, password := cred.password }

/-- `plainSaslClient` from plain.go. -/
structure plainSaslClient where
  username : String
  password : String
deriving DecidableEq

/-- `plainSaslClient.Start`: the mechanism name and the single payload
`NUL + username + NUL + password` (payload bytes modelled as the string whose
UTF-8 encoding they are; Go builds them the same way). -/
def plainSaslClient.Start (c : plainSaslClient) : String × String :=
  (PLAIN, "\x00" ++ c.username ++ "\x00" ++ c.password)

/-- `plainSaslClient.Next`: any server challenge is an error. -/
def plainSaslClient.Next (_ : plainSaslClient) (_ : String) : Except Err String :=
  .error (.authError "unexpected server challenge" none)

/-- `plainSaslClient.Completed`: always true. -/
def plainSaslClient.Completed (_ : plainSaslClient) : Bool :=
  true

/-- `PlainAuthenticator.Reauth`: always the dedicated unsupported error. -/
def PlainAuthenticator.Reauth (_ : PlainAuthenticator) : Option Err :=
  some (.authError "Plain authentication does not support reauthentication" none)

/-- A state-touching operation on the shared authenticator, for claim C3's
operation sequences: a `getAccessToken` call, an `invalidateAccessToken` call,
a full `Auth` call, a `Reauth` call, the test-only `SetAccessToken`, or a
(read-only) `CreateSpeculativeConversation`. -/
inductive AuthOp where
  | getToken (args : OIDCArgs) (callback : OIDCCallback)
  | invalidate
  | auth (conduct : Conduct) (azureCb : String → String → OIDCCallback)
  | reauth (conduct : Conduct) (azureCb : String → String → OIDCCallback)
  | setAccessToken (tok : String)
  | createSpeculative

/-- Effect of one operation on the pair (authenticator state, connection
state); results and errors are discarded, only the state transition is kept. -/
def applyOp (op : AuthOp) (s : OIDCAuthenticator × Connection) :
    OIDCAuthenticator × Connection :=
  match op with
  | .getToken args cb =>
    let r := s.1.getAccessToken s.2 args cb
    (r.oa, r.conn)
  | .invalidate => s.1.invalidateAccessToken s.2
  | .auth conduct azureCb =>
    let r := s.1.Auth s.2 conduct azureCb
    (r.oa, r.conn)
  | .reauth conduct azureCb =>
    let r := s.1.Reauth s.2 conduct azureCb
    (r.oa, r.conn)
  | .setAccessToken tok => ({ s.1 with accessToken := tok }, s.2)
  | .createSpeculative => s

/-- Effect of a whole operation sequence, first operation first. -/
def applyOps (ops : List AuthOp) (s : OIDCAuthenticator × Connection) :
    OIDCAuthenticator × Connection :=
  ops.foldl (fun acc op => applyOp op acc) s

/-- A freshly constructed authenticator with no configured callbacks, as
`newOIDCAuthenticator` builds it from a bare credential. -/
def oaInit : OIDCAuthenticator :=
  { authMechanismProperties := [], oidcMachineCallback := none,
    oidcHumanCallback := none, userName := "", accessToken := "",
    refreshToken := none, idpInfo := none, tokenGenID := 0 }

/-- A callback that always succeeds with the fixed token "tok". -/
def cycleCallback : OIDCCallback :=
  fun _ => .ok { accessToken := "tok", refreshToken := none, expiresAt := none }

/-- `k` repetitions of (successful fresh acquisition, then fenced
invalidation by the same connection): the sequence that drives the uint64
generation counter around its full range. -/
def cycleOps (k : Nat) : List AuthOp :=
  match k with
  | 0 => []
  | k + 1 => cycleOps k ++ [.getToken ⟨apiVersion, none, none⟩ cycleCallback, .invalidate]

/-- Environment of the concurrent-Authenticate model for claim C5: the machine
callback held by the shared authenticator's configuration and the conversation
outcome for each access token. -/
structure ConcConfig where
  cb : OIDCCallback
  convOk : String → Bool

/-- Control point of one in-flight `Auth` call in the interleaving model:
about to snapshot the cache; about to run the one-step conversation with a
snapshotted token; about to enter `getAccessToken`; about to run the
conversation with an acquired token; or finished with an outcome. -/
inductive Phase where
  | start
  | fastConv (tok : String)
  | needToken
  | conv (tok : String)
  | finished (ok : Bool)
deriving DecidableEq

/-- One in-flight call: its control point and its borrowed connection. -/
structure ThreadState where
  phase : Phase
  conn : Connection
deriving DecidableEq

/-- Shared state of N concurrent `Auth` calls: the shared authenticator, the
per-call thread states, and the total number of callback invocations. -/
structure ConcState where
  oa : OIDCAuthenticator
  threads : List ThreadState
  callbackCalls : Nat

/-- One atomic step of a single `Auth` call in the interleaving model of claim
C5. Atomic sections mirror the lock usage in the source: the snapshot read of
the cached token, the whole `getAccessToken` body (the lock is held across the
callback), and the fenced invalidation are single steps, while the SASL
conversation runs outside the lock as its own step. The machine-callback
dispatch path is the one modelled (the scenario of the claim). -/
def threadStep (cfg : ConcConfig) (oa : OIDCAuthenticator) (t : ThreadState)
    (calls : Nat) : OIDCAuthenticator × ThreadState × Nat :=
  match t.phase with
  | .start =>
    if oa.accessToken ≠ "" then
      (oa, { t with phase := .fastConv oa.accessToken }, calls)
    else
      (oa, { t with phase := .needToken }, calls)
  | .fastConv tok =>
    if cfg.convOk tok then
      (oa, { t with phase := .finished true }, calls)
    else
      let p := oa.invalidateAccessToken t.conn
      (p.1, { phase := .needToken, conn := p.2 }, calls)
  | .needToken =>
    let r := oa.getAccessToken t.conn ⟨apiVersion, none, none⟩ cfg.cb
    match r.result with
    | .ok tok =>
      (r.oa, { phase := .conv tok, conn := r.conn }, calls + r.callbackCalls)
    | .error _ =>
      (r.oa, { phase := .finished false, conn := r.conn }, calls + r.callbackCalls)
  | .conv tok =>
    if cfg.convOk tok then
      (oa, { t with phase := .finished true }, calls)
    else
      (oa, { t with phase := .finished false }, calls)
  | .finished _ => (oa, t, calls)

/-- Scheduler step: run one atomic step of thread `i` (no-op if out of range). -/
def concStep (cfg : ConcConfig) (s : ConcState) (i : Nat) : ConcState :=
  match s.threads.get? i with
  | none => s
  | some t =>
    let r := threadStep cfg s.oa t s.callbackCalls
    { oa := r.1, threads := s.threads.set i r.2.1, callbackCalls := r.2.2 }

/-- Run a whole schedule (a list of thread indices) from a state. -/
def concRun (cfg : ConcConfig) (s : ConcState) (sched : List Nat) : ConcState :=
  sched.foldl (concStep cfg) s

/-- The inductive invariant of the C5 model, for acquired token `tok`: the
shared cache holds nothing or `tok`; the callback has been invoked exactly once
as soon as (and only when) the cache is populated; every token a thread carries
into a conversation is `tok`; once any thread is past its snapshot-and-found-
empty stage the cache is populated; and every finished thread succeeded. -/
def ConcInv (tok : String) (s : ConcState) : Prop :=
  (s.oa.accessToken = "" ∨ s.oa.accessToken = tok) ∧
  (s.callbackCalls = if s.oa.accessToken = "" then 0 else 1) ∧
  (∀ t ∈ s.threads, ∀ tk, t.phase = .fastConv tk ∨ t.phase = .conv tk → tk = tok) ∧
  (∀ t ∈ s.threads,
    ((∃ tk, t.phase = .fastConv tk) ∨ (∃ tk, t.phase = .conv tk) ∨
      (∃ b, t.phase = .finished b)) →
    s.oa.accessToken = tok) ∧
  (∀ t ∈ s.threads, ∀ b, t.phase = .finished b → b = true)

/-! ## Claim C1: fenced invalidation -/

/-- C1: for connection generation `g` and authenticator generation `G`,
`invalidateAccessToken` clears the cached token and zeroes the connection's
recorded generation exactly when `g = 0 ∨ g ≥ G`; otherwise it leaves the
authenticator and the connection untouched; and it never changes the
generation counter. -/
theorem C1_invalidate_fencing (oa : OIDCAuthenticator) (conn : Connection) :
    (oa.invalidateAccessToken conn).1.tokenGenID = oa.tokenGenID ∧
    (conn.oidcTokenGenID = 0 ∨ conn.oidcTokenGenID ≥ oa.tokenGenID →
      (oa.invalidateAccessToken conn).1.accessToken = "" ∧
      (oa.invalidateAccessToken conn).2.oidcTokenGenID = 0 ∧
      (oa.invalidateAccessToken conn).1.refreshToken = oa.refreshToken) ∧
    (¬(conn.oidcTokenGenID = 0 ∨ conn.oidcTokenGenID ≥ oa.tokenGenID) →
      (oa.invalidateAccessToken conn).1 = oa ∧
      (oa.invalidateAccessToken conn).2 = conn) := by
  unfold OIDCAuthenticator.invalidateAccessToken
  by_cases h : conn.oidcTokenGenID = 0 ∨ conn.oidcTokenGenID ≥ oa.tokenGenID
  · simp [h]
  · simp [h]

/-- C1 witness: a concrete stale-generation connection (g = 2 < G = 5) leaves
everything unchanged, and a concrete zero-generation connection is cleared. -/
theorem C1_invalidate_fencing_witness :
    let oa : OIDCAuthenticator :=
      { authMechanismProperties := [], oidcMachineCallback := none,
        oidcHumanCallback := none, userName := "u", accessToken := "tok",
        refreshToken := none, idpInfo := none, tokenGenID := 5 }
    (oa.invalidateAccessToken ⟨2⟩).1 = oa ∧
    (oa.invalidateAccessToken ⟨0⟩).1.accessToken = "" := by
  intro oa
  refine ⟨(C1_invalidate_fencing oa ⟨2⟩).2.2 (by decide) |>.1, ?_⟩
  exact ((C1_invalidate_fencing oa ⟨0⟩).2.1 (Or.inl rfl)).1

/-! ## Claim C9: the PLAIN mechanism -/

/-- C9: the PLAIN client's single payload is `NUL ++ username ++ NUL ++
password` under mechanism name PLAIN, it reports completion immediately, every
further server challenge fails with the protocol-violation auth error, and
`Reauth` returns the dedicated unsupported-reauthentication error. -/
theorem C9_plain_mechanism (username password : String) :
    (plainSaslClient.Start ⟨username, password⟩ =
      (PLAIN, "\x00" ++ username ++ "\x00" ++ password)) ∧
    (plainSaslClient.Completed ⟨username, password⟩ = true) ∧
    (∀ challenge, plainSaslClient.Next ⟨username, password⟩ challenge =
      .error (.authError "unexpected server challenge" none)) ∧
    (PlainAuthenticator.Reauth ⟨username, password⟩ =
      some (.authError "Plain authentication does not support reauthentication"
        none)) := by
  exact ⟨rfl, rfl, fun _ => rfl, rfl⟩

/-! ## Claim C2: the getAccessToken contract -/

/-- C2: `getAccessToken` returns a non-empty cached token without invoking the
callback and without touching any state; otherwise it invokes the callback
exactly once, and on success stores the returned token, increments the
generation counter (uint64), records the new generation on the connection, and
retains a provided refresh token, while on failure it returns the error
unchanged and leaves authenticator and connection exactly as they were. -/
theorem C2_getAccessToken_contract (oa : OIDCAuthenticator) (conn : Connection)
    (args : OIDCArgs) (callback : OIDCCallback) :
    (oa.accessToken ≠ "" →
      oa.getAccessToken conn args callback =
        { result := .ok oa.accessToken, oa := oa, conn := conn, callbackCalls := 0 }) ∧
    (oa.accessToken = "" →
      (oa.getAccessToken conn args callback).callbackCalls = 1 ∧
      (∀ e, callback args = .error e →
        oa.getAccessToken conn args callback =
          { result := .error e, oa := oa, conn := conn, callbackCalls := 1 }) ∧
      (∀ cred, callback args = .ok cred →
        (oa.getAccessToken conn args callback).result = .ok cred.accessToken ∧
        (oa.getAccessToken conn args callback).oa.accessToken = cred.accessToken ∧
        (oa.getAccessToken conn args callback).oa.tokenGenID =
          (oa.tokenGenID + 1) % uint64Mod ∧
        (oa.getAccessToken conn args callback).conn.oidcTokenGenID =
          (oa.tokenGenID + 1) % uint64Mod ∧
        (oa.getAccessToken conn args callback).oa.refreshToken =
          (match cred.refreshToken with
            | some rt => some rt
            | none => oa.refreshToken))) := by
  by_cases h : oa.accessToken = ""
  · refine ⟨fun hc => absurd h hc, fun _ => ?_⟩
    cases hcb : callback args with
    | error e =>
      refine ⟨?_, fun e' he' => ?_, fun cred hcred => ?_⟩
      · simp [OIDCAuthenticator.getAccessToken, h, hcb]
      · injection he' with hee
        subst hee
        simp [OIDCAuthenticator.getAccessToken, h, hcb]
      · exact absurd hcred (by simp)
    | ok cred =>
      refine ⟨?_, fun e' he' => ?_, fun cred' hcred => ?_⟩
      · simp [OIDCAuthenticator.getAccessToken, h, hcb]
      · exact absurd he' (by simp)
      · injection hcred with hcc
        subst hcc
        simp [OIDCAuthenticator.getAccessToken, h, hcb]
  · refine ⟨fun _ => ?_, fun hc => absurd hc h⟩
    simp [OIDCAuthenticator.getAccessToken, h]

/-- C2 witness: with an empty cache and a callback returning token "tok" and
refresh token "rt", the call returns "tok", bumps the generation to 1, records
it on the connection, and retains "rt"; a failing callback leaves the
authenticator untouched. -/
theorem C2_getAccessToken_contract_witness :
    let oa0 : OIDCAuthenticator :=
      { authMechanismProperties := [], oidcMachineCallback := none,
        oidcHumanCallback := none, userName := "u", accessToken := "",
        refreshToken := none, idpInfo := none, tokenGenID := 0 }
    let cb0 : OIDCCallback := fun _ => .ok ⟨"tok", some "rt", none⟩
    let r := oa0.getAccessToken ⟨0⟩ ⟨apiVersion, none, none⟩ cb0
    r.result = .ok "tok" ∧ r.oa.accessToken = "tok" ∧ r.oa.tokenGenID = 1 ∧
      r.conn.oidcTokenGenID = 1 ∧ r.oa.refreshToken = some "rt" ∧
      r.callbackCalls = 1 := by
  intro oa0 cb0 r
  have h := (C2_getAccessToken_contract oa0 ⟨0⟩ ⟨apiVersion, none, none⟩ cb0).2 rfl
  obtain ⟨hcalls, -, hok⟩ := h
  have h4 := hok ⟨"tok", some "rt", none⟩ rfl
  have hmod : (0 + 1) % uint64Mod = 1 := by decide
  exact ⟨h4.1, h4.2.1, by rw [show r.oa.tokenGenID = (0 + 1) % uint64Mod from h4.2.2.1, hmod],
    by rw [show r.conn.oidcTokenGenID = (0 + 1) % uint64Mod from h4.2.2.2.1, hmod],
    h4.2.2.2.2, hcalls⟩

/-! ## Claim C8: speculative conversation -/

/-- C8: `CreateSpeculativeConversation` signals skip (no conversation, no
error) exactly when the cached token is empty; with a non-empty cached token it
returns a one-step conversation whose single step payload maps the key "jwt"
to exactly that token, with no further steps accepted. -/
theorem C8_speculative_conversation (oa : OIDCAuthenticator) :
    (oa.accessToken = "" → oa.CreateSpeculativeConversation = none) ∧
    (oa.accessToken ≠ "" →
      ∃ conv, oa.CreateSpeculativeConversation = some conv ∧
        conv.client.Start = (MongoDBOIDC, [("jwt", oa.accessToken)]) ∧
        conv.client.Completed = true ∧
        (∀ challenge, (conv.client.Next challenge).isOk = false)) := by
  unfold OIDCAuthenticator.CreateSpeculativeConversation
  by_cases h : oa.accessToken = ""
  · exact ⟨fun _ => by simp [h], fun hc => absurd h hc⟩
  · refine ⟨fun hc => absurd hc h, fun _ => ?_⟩
    refine ⟨{ client := { userName := "", accessToken := oa.accessToken },
              source := "$external", speculative := true },
      ?_, rfl, rfl, fun _ => rfl⟩
    simp [h]

/-- C8 witness: with cached token "jwt-tok" the conversation's payload is
exactly the "jwt" field with that token; with an empty cache, skip. -/
theorem C8_speculative_conversation_witness :
    let oaTok : OIDCAuthenticator :=
      { authMechanismProperties := [], oidcMachineCallback := none,
        oidcHumanCallback := none, userName := "u", accessToken := "jwt-tok",
        refreshToken := none, idpInfo := none, tokenGenID := 3 }
    let oaEmpty : OIDCAuthenticator :=
      { authMechanismProperties := [], oidcMachineCallback := none,
        oidcHumanCallback := none, userName := "u", accessToken := "",
        refreshToken := none, idpInfo := none, tokenGenID := 3 }
    (∃ conv, oaTok.CreateSpeculativeConversation = some conv ∧
      conv.client.Start = (MongoDBOIDC, [("jwt", "jwt-tok")])) ∧
    oaEmpty.CreateSpeculativeConversation = none := by
  intro oaTok oaEmpty
  refine ⟨?_, (C8_speculative_conversation oaEmpty).1 rfl⟩
  obtain ⟨conv, hc, hs, -, -⟩ :=
    (C8_speculative_conversation oaTok).2 (by decide)
  exact ⟨conv, hc, hs⟩

/-! ## Helper lemmas about invalidation and dispatch -/

/-- `invalidateAccessToken` either leaves the pair untouched or clears the
token and zeroes the connection slot. -/
theorem invalidateAccessToken_cases (oa : OIDCAuthenticator) (conn : Connection) :
    oa.invalidateAccessToken conn = (oa, conn) ∨
    oa.invalidateAccessToken conn =
      ({ oa with accessToken := "" }, { conn with oidcTokenGenID := 0 }) := by
  by_cases h : conn.oidcTokenGenID = 0 ∨ conn.oidcTokenGenID ≥ oa.tokenGenID
  · exact Or.inr (by simp [OIDCAuthenticator.invalidateAccessToken, h])
  · exact Or.inl (by simp [OIDCAuthenticator.invalidateAccessToken, h])

/-- Invalidation never touches the configuration fields or the generation
counter, and `providerCallback` is insensitive to it. -/
theorem invalidateAccessToken_preserves_config (oa : OIDCAuthenticator)
    (conn : Connection) (azureCb : String → String → OIDCCallback) :
    (oa.invalidateAccessToken conn).1.oidcHumanCallback = oa.oidcHumanCallback ∧
    (oa.invalidateAccessToken conn).1.oidcMachineCallback = oa.oidcMachineCallback ∧
    (oa.invalidateAccessToken conn).1.providerCallback azureCb =
      oa.providerCallback azureCb := by
  rcases invalidateAccessToken_cases oa conn with h | h <;>
    rw [h] <;> exact ⟨rfl, rfl, rfl⟩

/-- The dispatch tail performs at most one conversation exchange beyond those
already counted. -/
theorem authDispatch_convCount_le (oa : OIDCAuthenticator) (conn : Connection)
    (conduct : Conduct) (azureCb : String → String → OIDCCallback) (k : Nat) :
    (oa.authDispatch conn conduct azureCb k).convCount ≤ k + 1 := by
  unfold OIDCAuthenticator.authDispatch OIDCAuthenticator.doAuthMachine
    OIDCAuthenticator.doAuthHuman
  cases oa.oidcHumanCallback with
  | some cb => simp
  | none =>
    cases oa.oidcMachineCallback with
    | some cb =>
      cases h : (oa.getAccessToken conn ⟨apiVersion, none, none⟩ cb).result <;>
        simp [h]
    | none =>
      rcases hp : oa.providerCallback azureCb with ⟨ocb, oerr⟩
      cases oerr with
      | some e => simp
      | none =>
        cases ocb with
        | some cb =>
          cases h : (oa.getAccessToken conn ⟨apiVersion, none, none⟩ cb).result <;>
            simp [h]
        | none => simp

/-- The three dispatch clauses, for an arbitrary state the dispatch tail runs
on: a configured human callback fails with the explicit not-implemented error
and no callback invocation; a user machine callback is used verbatim (the
provider resolver is never consulted); and if neither a user callback nor a
provider callback resolves, the call fails with the no-callback auth error. -/
theorem authDispatch_clauses (oa : OIDCAuthenticator) (conn : Connection)
    (conduct : Conduct) (azureCb : String → String → OIDCCallback) (k : Nat) :
    (∀ cb, oa.oidcHumanCallback = some cb →
      (oa.authDispatch conn conduct azureCb k).result =
        some (.authError "OIDC" (some (.fmtErr "human flow not implemented yet"))) ∧
      (oa.authDispatch conn conduct azureCb k).callbackCalls = 0) ∧
    (oa.oidcHumanCallback = none → ∀ cb, oa.oidcMachineCallback = some cb →
      oa.authDispatch conn conduct azureCb k =
        oa.doAuthMachine conn conduct cb k) ∧
    (oa.oidcHumanCallback = none → oa.oidcMachineCallback = none →
      oa.providerCallback azureCb = (none, none) →
      (oa.authDispatch conn conduct azureCb k).result =
        some (.authError "no OIDC callback provided" none)) := by
  refine ⟨fun cb hcb => ?_, fun hh cb hm => ?_, fun hh hm hp => ?_⟩
  · simp [OIDCAuthenticator.authDispatch, OIDCAuthenticator.doAuthHuman, hcb]
  · simp [OIDCAuthenticator.authDispatch, hh, hm]
  · simp [OIDCAuthenticator.authDispatch, hh, hm, hp]

/-! ## Claim C4: cached-token fast path of Auth -/

/-- C4: with a pre-seeded non-empty cached token, a successful one-step
conversation means `Auth` performs exactly one conversation exchange and zero
callback invocations and succeeds with no state change; a failed one means it
invalidates (fenced) and runs the dispatch tail exactly once, for at most one
extra conversation attempt (two exchanges in total). -/
theorem C4_auth_cached_fast_path (oa : OIDCAuthenticator) (conn : Connection)
    (conduct : Conduct) (azureCb : String → String → OIDCCallback)
    (hcached : oa.accessToken ≠ "") :
    (conduct ⟨oa.userName, oa.accessToken⟩ = none →
      oa.Auth conn conduct azureCb =
        { result := none, oa := oa, conn := conn, convCount := 1,
          callbackCalls := 0 }) ∧
    (∀ e, conduct ⟨oa.userName, oa.accessToken⟩ = some e →
      oa.Auth conn conduct azureCb =
        (oa.invalidateAccessToken conn).1.authDispatch
          (oa.invalidateAccessToken conn).2 conduct azureCb 1 ∧
      (oa.Auth conn conduct azureCb).convCount ≤ 2) := by
  constructor
  · intro hok
    simp [OIDCAuthenticator.Auth, hcached, hok]
  · intro e he
    have hEq : oa.Auth conn conduct azureCb =
        (oa.invalidateAccessToken conn).1.authDispatch
          (oa.invalidateAccessToken conn).2 conduct azureCb 1 := by
      simp [OIDCAuthenticator.Auth, hcached, he]
    refine ⟨hEq, ?_⟩
    rw [hEq]
    exact authDispatch_convCount_le _ _ _ _ 1

/-- C4 witness: with cached token "t" and a conversation oracle that accepts
it, `Auth` succeeds in one exchange with zero callback invocations. -/
theorem C4_auth_cached_fast_path_witness :
    let oa : OIDCAuthenticator :=
      { authMechanismProperties := [], oidcMachineCallback := none,
        oidcHumanCallback := none, userName := "u", accessToken := "t",
        refreshToken := none, idpInfo := none, tokenGenID := 1 }
    let conduct : Conduct := fun _ => none
    oa.Auth ⟨1⟩ conduct (fun _ _ _ => .error (.fmtErr "unused")) =
      { result := none, oa := oa, conn := ⟨1⟩, convCount := 1,
        callbackCalls := 0 } := by
  intro oa conduct
  exact (C4_auth_cached_fast_path oa ⟨1⟩ conduct _ (by simp)).1 rfl

/-! ## Claim C7: dispatch-step error handling -/

/-- C7: in every `Auth` call that reaches the dispatch step (no cached token,
or the cached-token conversation failed), a configured human callback makes
the call fail with the explicit not-implemented error and zero callback
invocations; otherwise a user-supplied machine callback is used verbatim,
taking precedence over provider resolution; and if neither a user machine
callback nor a provider callback resolves, the call fails with the
"no OIDC callback provided" auth error. -/
theorem C7_dispatch_error_handling (oa : OIDCAuthenticator) (conn : Connection)
    (conduct : Conduct) (azureCb : String → String → OIDCCallback)
    (hreach : oa.accessToken = "" ∨
      ∃ e, conduct ⟨oa.userName, oa.accessToken⟩ = some e) :
    (∀ cb, oa.oidcHumanCallback = some cb →
      (oa.Auth conn conduct azureCb).result =
        some (.authError "OIDC" (some (.fmtErr "human flow not implemented yet"))) ∧
      (oa.Auth conn conduct azureCb).callbackCalls = 0) ∧
    (oa.oidcHumanCallback = none → ∀ cb, oa.oidcMachineCallback = some cb →
      ∃ (oa2 : OIDCAuthenticator) (conn2 : Connection) (k : Nat),
        oa.Auth conn conduct azureCb =
          OIDCAuthenticator.doAuthMachine oa2 conn2 conduct cb k) ∧
    (oa.oidcHumanCallback = none → oa.oidcMachineCallback = none →
      oa.providerCallback azureCb = (none, none) →
      (oa.Auth conn conduct azureCb).result =
        some (.authError "no OIDC callback provided" none)) := by
  have hAuth : ∃ (oa2 : OIDCAuthenticator) (conn2 : Connection) (k : Nat),
      oa.Auth conn conduct azureCb =
        OIDCAuthenticator.authDispatch oa2 conn2 conduct azureCb k ∧
      oa2.oidcHumanCallback = oa.oidcHumanCallback ∧
      oa2.oidcMachineCallback = oa.oidcMachineCallback ∧
      oa2.providerCallback azureCb = oa.providerCallback azureCb := by
    rcases hreach with hempty | ⟨e, he⟩
    · refine ⟨oa, conn, 0, ?_, rfl, rfl, rfl⟩
      simp [OIDCAuthenticator.Auth, hempty]
    · by_cases hc : oa.accessToken = ""
      · refine ⟨oa, conn, 0, ?_, rfl, rfl, rfl⟩
        simp [OIDCAuthenticator.Auth, hc]
      · obtain ⟨h1, h2, h3⟩ :=
          invalidateAccessToken_preserves_config oa conn azureCb
        refine ⟨(oa.invalidateAccessToken conn).1,
          (oa.invalidateAccessToken conn).2, 1, ?_, h1, h2, h3⟩
        simp [OIDCAuthenticator.Auth, hc, he]
  obtain ⟨oa2, conn2, k, hEq, hh, hm, hp⟩ := hAuth
  obtain ⟨d1, d2, d3⟩ := authDispatch_clauses oa2 conn2 conduct azureCb k
  refine ⟨fun cb hcb => ?_, fun hhn cb hmc => ?_, fun hhn hmn hpn => ?_⟩
  · rw [hEq]
    exact d1 cb (hh.trans hcb)
  · refine ⟨oa2, conn2, k, ?_⟩
    rw [hEq]
    exact d2 (hh.trans hhn) cb (hm.trans hmc)
  · rw [hEq]
    exact d3 (hh.trans hhn) (hm.trans hmn) (hp.trans hpn)

/-- C7 witness: with an empty cache and a configured human callback, `Auth`
fails with the explicit not-implemented error; with no callbacks and no
ENVIRONMENT property, it fails with "no OIDC callback provided". -/
theorem C7_dispatch_error_handling_witness :
    let hcb : OIDCCallback := fun _ => .error (.fmtErr "unused")
    let oaHuman : OIDCAuthenticator :=
      { authMechanismProperties := [], oidcMachineCallback := none,
        oidcHumanCallback := some hcb, userName := "u", accessToken := "",
        refreshToken := none, idpInfo := none, tokenGenID := 0 }
    let oaNone : OIDCAuthenticator :=
      { authMechanismProperties := [], oidcMachineCallback := none,
        oidcHumanCallback := none, userName := "u", accessToken := "",
        refreshToken := none, idpInfo := none, tokenGenID := 0 }
    let conduct : Conduct := fun _ => none
    let azureCb : String → String → OIDCCallback :=
      fun _ _ _ => .error (.fmtErr "unused")
    (oaHuman.Auth ⟨0⟩ conduct azureCb).result =
      some (.authError "OIDC" (some (.fmtErr "human flow not implemented yet"))) ∧
    (oaNone.Auth ⟨0⟩ conduct azureCb).result =
      some (.authError "no OIDC callback provided" none) := by
  intro hcb oaHuman oaNone conduct azureCb
  constructor
  · exact ((C7_dispatch_error_handling oaHuman ⟨0⟩ conduct azureCb
      (Or.inl rfl)).1 hcb rfl).1
  · exact (C7_dispatch_error_handling oaNone ⟨0⟩ conduct azureCb
      (Or.inl rfl)).2.2 rfl rfl rfl

/-! ## Claim C6: construction-time validation (corrected) -/

/-- C6 counterexample: construction does not reject every credential with a
platform tag set together with a user callback — the callback prohibition only
fires for the recognized tags (azure/gcp/test after lower-casing). A credential
with ENVIRONMENT "k8s" and a user-supplied machine callback is accepted. -/
theorem C6_construction_validation_counterexample :
    let cred : Cred :=
      { username := "u", password := "",
        props := [("ENVIRONMENT", "k8s")],
        oidcMachineCallback := some (fun _ => .error (.fmtErr "cb")),
        oidcHumanCallback := none }
    lookupProp cred.props environmentProp = some "k8s" ∧
    cred.oidcMachineCallback.isSome = true ∧
    ∃ oa, newOIDCAuthenticator cred = .ok oa := by
  intro cred
  exact ⟨rfl, rfl, ⟨_, rfl⟩⟩

/-- C6 (amended): construction rejects, with an error from the pure validation
step, every credential in which the secret (password) is non-empty; or the
lower-cased platform tag is azure or gcp and TOKEN_RESOURCE is absent; or the
lower-cased platform tag is one of the recognized values azure, gcp, test and
a user-supplied (machine or human) callback is also present. -/
theorem C6_construction_validation (cred : Cred) :
    (cred.password ≠ "" → ∃ e, newOIDCAuthenticator cred = .error e) ∧
    (∀ env, lookupProp cred.props environmentProp = some env →
      asciiToLower env = azureEnvironmentValue ∨
        asciiToLower env = gcpEnvironmentValue →
      lookupProp cred.props resourceProp = none →
      ∃ e, newOIDCAuthenticator cred = .error e) ∧
    (∀ env, lookupProp cred.props environmentProp = some env →
      asciiToLower env = azureEnvironmentValue ∨
        asciiToLower env = gcpEnvironmentValue ∨
        asciiToLower env = testEnvironmentValue →
      cred.oidcMachineCallback.isSome ∨ cred.oidcHumanCallback.isSome →
      ∃ e, newOIDCAuthenticator cred = .error e) := by
  have hpwErr : cred.password ≠ "" → ∃ e, newOIDCAuthenticator cred = .error e := by
    intro h
    exact ⟨.fmtErr ("password cannot be specified for " ++ MongoDBOIDC),
      by simp [newOIDCAuthenticator, h]⟩
  refine ⟨hpwErr, fun env henv hlow hres => ?_, fun env henv hlow hcb => ?_⟩
  · by_cases hp : cred.password = ""
    · refine ⟨.fmtErr (resourceProp ++ " must be specified for " ++ env
        ++ " " ++ environmentProp), ?_⟩
      rcases hlow with hl | hl <;>
        simp [newOIDCAuthenticator, hp, henv, hl, hres,
          azureEnvironmentValue, gcpEnvironmentValue]
    · exact hpwErr hp
  · by_cases hp : cred.password = ""
    · rcases hlow with hl | hl | hl
      · rcases hq : lookupProp cred.props resourceProp with _ | r
        · exact ⟨.fmtErr (resourceProp ++ " must be specified for " ++ env
            ++ " " ++ environmentProp),
            by simp [newOIDCAuthenticator, hp, henv, hl, hq]⟩
        · exact ⟨.fmtErr ("OIDC callbacks are not allowed for " ++ env
            ++ " " ++ environmentProp),
            by simp [newOIDCAuthenticator, hp, henv, hl, hq, hcb]⟩
      · rcases hq : lookupProp cred.props resourceProp with _ | r
        · exact ⟨.fmtErr (resourceProp ++ " must be specified for " ++ env
            ++ " " ++ environmentProp),
            by simp [newOIDCAuthenticator, hp, henv, hl, hq,
              azureEnvironmentValue, gcpEnvironmentValue]⟩
        · exact ⟨.fmtErr ("OIDC callbacks are not allowed for " ++ env
            ++ " " ++ environmentProp),
            by simp [newOIDCAuthenticator, hp, henv, hl, hq, hcb,
              azureEnvironmentValue, gcpEnvironmentValue]⟩
      · exact ⟨.fmtErr ("OIDC callbacks are not allowed for " ++ env
          ++ " " ++ environmentProp),
          by simp [newOIDCAuthenticator, hp, henv, hl, hcb,
            azureEnvironmentValue, gcpEnvironmentValue, testEnvironmentValue]⟩
    · exact hpwErr hp

/-- C6 witness: a non-empty password, an azure tag without TOKEN_RESOURCE, and
a test tag with a machine callback are each rejected at construction. -/
theorem C6_construction_validation_witness :
    let credPw : Cred :=
      { username := "u", password := "secret", props := [],
        oidcMachineCallback := none, oidcHumanCallback := none }
    let credRes : Cred :=
      { username := "u", password := "",
        props := [("ENVIRONMENT", "azure")],
        oidcMachineCallback := none, oidcHumanCallback := none }
    let credCb : Cred :=
      { username := "u", password := "",
        props := [("ENVIRONMENT", "test")],
        oidcMachineCallback := some (fun _ => .error (.fmtErr "cb")),
        oidcHumanCallback := none }
    (∃ e, newOIDCAuthenticator credPw = .error e) ∧
    (∃ e, newOIDCAuthenticator credRes = .error e) ∧
    (∃ e, newOIDCAuthenticator credCb = .error e) := by
  intro credPw credRes credCb
  refine ⟨(C6_construction_validation credPw).1 (by decide), ?_, ?_⟩
  · exact (C6_construction_validation credRes).2.1 "azure" rfl
      (Or.inl (by decide)) rfl
  · exact (C6_construction_validation credCb).2.2 "test" rfl
      (Or.inr (Or.inr (by decide))) (Or.inl rfl)

/-! ## Claim C10: case-sensitivity mismatch between validation and resolution -/

/-- C10: for any credential whose ENVIRONMENT value lower-cases to azure, gcp
or test but equals none of them exactly, and which passes validation (empty
password, TOKEN_RESOURCE present when the lower-cased tag is azure/gcp, no user
callbacks), construction succeeds, yet the provider resolver — which compares
case-sensitively — rejects the value with the not-supported error, and every
`Auth` call on the freshly built authenticator (whose cache starts empty, so it
always reaches provider resolution) fails with that error wrapped. -/
theorem C10_env_case_mismatch (cred : Cred) (env : String)
    (henv : lookupProp cred.props environmentProp = some env)
    (hlow : asciiToLower env = azureEnvironmentValue ∨
      asciiToLower env = gcpEnvironmentValue ∨
      asciiToLower env = testEnvironmentValue)
    (hcase : env ≠ azureEnvironmentValue ∧ env ≠ gcpEnvironmentValue ∧
      env ≠ testEnvironmentValue)
    (hpw : cred.password = "")
    (hres : asciiToLower env = azureEnvironmentValue ∨
      asciiToLower env = gcpEnvironmentValue →
      ∃ r, lookupProp cred.props resourceProp = some r)
    (hnomach : cred.oidcMachineCallback = none)
    (hnohum : cred.oidcHumanCallback = none) :
    ∃ oa, newOIDCAuthenticator cred = .ok oa ∧
      (∀ azureCb, oa.providerCallback azureCb = (none,
        some (.fmtErr (environmentProp ++ " " ++ env
          ++ " not supported for MONGODB-OIDC")))) ∧
      (∀ conn conduct azureCb, (oa.Auth conn conduct azureCb).result =
        some (.wrapErr "error getting built-in OIDC provider"
          (.fmtErr (environmentProp ++ " " ++ env
            ++ " not supported for MONGODB-OIDC")))) := by
  obtain ⟨hcA, hcG, hcT⟩ := hcase
  refine ⟨{ authMechanismProperties := cred.props, oidcMachineCallback := none,
            oidcHumanCallback := none, userName := cred.username,
            accessToken := "", refreshToken := none, idpInfo := none,
            tokenGenID := 0 }, ?_, ?_, ?_⟩
  · rcases hlow with hl | hl | hl
    · obtain ⟨r, hr⟩ := hres (Or.inl hl)
      simp [newOIDCAuthenticator, hpw, henv, hl, hr, hnomach, hnohum]
    · obtain ⟨r, hr⟩ := hres (Or.inr hl)
      simp [newOIDCAuthenticator, hpw, henv, hl, hr, hnomach, hnohum,
        azureEnvironmentValue, gcpEnvironmentValue]
    · simp [newOIDCAuthenticator, hpw, henv, hl, hnomach, hnohum,
        azureEnvironmentValue, gcpEnvironmentValue, testEnvironmentValue]
  · intro azureCb
    simp [OIDCAuthenticator.providerCallback, henv, hcA, hcG]
  · intro conn conduct azureCb
    simp [OIDCAuthenticator.Auth, OIDCAuthenticator.authDispatch,
      OIDCAuthenticator.providerCallback, henv, hcA, hcG]

/-- C10 witness: ENVIRONMENT "Azure" with TOKEN_RESOURCE present passes
construction, yet every Auth call fails with the wrapped not-supported error. -/
theorem C10_env_case_mismatch_witness :
    let cred : Cred :=
      { username := "u", password := "",
        props := [("ENVIRONMENT", "Azure"), ("TOKEN_RESOURCE", "res")],
        oidcMachineCallback := none, oidcHumanCallback := none }
    ∃ oa, newOIDCAuthenticator cred = .ok oa ∧
      (∀ conn conduct azureCb, (oa.Auth conn conduct azureCb).result =
        some (.wrapErr "error getting built-in OIDC provider"
          (.fmtErr (environmentProp ++ " " ++ "Azure"
            ++ " not supported for MONGODB-OIDC")))) := by
  intro cred
  obtain ⟨oa, hok, hprov, hauth⟩ := C10_env_case_mismatch cred "Azure" rfl
    (Or.inl (by decide)) ⟨by decide, by decide, by decide⟩ rfl
    (fun _ => ⟨"res", rfl⟩) rfl rfl
  exact ⟨oa, hok, hauth⟩

/-! ## Claim C3: the generation counter (corrected: uint64 wraparound) -/

/-- `getAccessToken` leaves the counter alone or performs the uint64
increment. -/
theorem getAccessToken_tokenGenID (oa : OIDCAuthenticator) (conn : Connection)
    (args : OIDCArgs) (cb : OIDCCallback) :
    (oa.getAccessToken conn args cb).oa.tokenGenID = oa.tokenGenID ∨
    (oa.getAccessToken conn args cb).oa.tokenGenID =
      (oa.tokenGenID + 1) % uint64Mod := by
  by_cases h : oa.accessToken = ""
  · cases hcb : cb args with
    | error e => left; simp [OIDCAuthenticator.getAccessToken, h, hcb]
    | ok cred => right; simp [OIDCAuthenticator.getAccessToken, h, hcb]
  · left; simp [OIDCAuthenticator.getAccessToken, h]

/-- `invalidateAccessToken` never changes the counter. -/
theorem invalidateAccessToken_tokenGenID (oa : OIDCAuthenticator)
    (conn : Connection) :
    (oa.invalidateAccessToken conn).1.tokenGenID = oa.tokenGenID := by
  rcases invalidateAccessToken_cases oa conn with h | h <;> rw [h]

/-- `doAuthMachine` changes the counter only through its `getAccessToken`. -/
theorem doAuthMachine_tokenGenID (oa : OIDCAuthenticator) (conn : Connection)
    (conduct : Conduct) (cb : OIDCCallback) (k : Nat) :
    (OIDCAuthenticator.doAuthMachine oa conn conduct cb k).oa.tokenGenID
      = oa.tokenGenID ∨
    (OIDCAuthenticator.doAuthMachine oa conn conduct cb k).oa.tokenGenID
      = (oa.tokenGenID + 1) % uint64Mod := by
  have hg := getAccessToken_tokenGenID oa conn ⟨apiVersion, none, none⟩ cb
  unfold OIDCAuthenticator.doAuthMachine
  cases hr : (oa.getAccessToken conn ⟨apiVersion, none, none⟩ cb).result with
  | error e => simpa [hr] using hg
  | ok tok => simpa [hr] using hg

/-- The dispatch tail changes the counter only through an acquisition. -/
theorem authDispatch_tokenGenID (oa : OIDCAuthenticator) (conn : Connection)
    (conduct : Conduct) (azureCb : String → String → OIDCCallback) (k : Nat) :
    (oa.authDispatch conn conduct azureCb k).oa.tokenGenID = oa.tokenGenID ∨
    (oa.authDispatch conn conduct azureCb k).oa.tokenGenID =
      (oa.tokenGenID + 1) % uint64Mod := by
  unfold OIDCAuthenticator.authDispatch OIDCAuthenticator.doAuthHuman
  cases hh : oa.oidcHumanCallback with
  | some cb => left; simp [hh]
  | none =>
    cases hm : oa.oidcMachineCallback with
    | some cb => simpa [hh, hm] using doAuthMachine_tokenGenID oa conn conduct cb k
    | none =>
      rcases hp : oa.providerCallback azureCb with ⟨ocb, oerr⟩
      cases oerr with
      | some e => left; simp [hh, hm, hp]
      | none =>
        cases ocb with
        | some cb =>
          simpa [hh, hm, hp] using doAuthMachine_tokenGenID oa conn conduct cb k
        | none => left; simp [hh, hm, hp]

/-- `Auth` changes the counter only through an acquisition. -/
theorem Auth_tokenGenID (oa : OIDCAuthenticator) (conn : Connection)
    (conduct : Conduct) (azureCb : String → String → OIDCCallback) :
    (oa.Auth conn conduct azureCb).oa.tokenGenID = oa.tokenGenID ∨
    (oa.Auth conn conduct azureCb).oa.tokenGenID =
      (oa.tokenGenID + 1) % uint64Mod := by
  unfold OIDCAuthenticator.Auth
  by_cases h : oa.accessToken = ""
  · simpa [h] using authDispatch_tokenGenID oa conn conduct azureCb 0
  · cases hc : conduct ⟨oa.userName, oa.accessToken⟩ with
    | none => left; simp [h, hc]
    | some e =>
      have hd := authDispatch_tokenGenID (oa.invalidateAccessToken conn).1
        (oa.invalidateAccessToken conn).2 conduct azureCb 1
      rw [invalidateAccessToken_tokenGenID] at hd
      simpa [h, hc] using hd

/-- `Reauth` changes the counter only through an acquisition. -/
theorem Reauth_tokenGenID (oa : OIDCAuthenticator) (conn : Connection)
    (conduct : Conduct) (azureCb : String → String → OIDCCallback) :
    (oa.Reauth conn conduct azureCb).oa.tokenGenID = oa.tokenGenID ∨
    (oa.Reauth conn conduct azureCb).oa.tokenGenID =
      (oa.tokenGenID + 1) % uint64Mod := by
  unfold OIDCAuthenticator.Reauth
  have h := Auth_tokenGenID (oa.invalidateAccessToken conn).1
    (oa.invalidateAccessToken conn).2 conduct azureCb
  rwa [invalidateAccessToken_tokenGenID] at h

/-- Every single operation leaves the counter unchanged or performs the uint64
increment. -/
theorem applyOp_tokenGenID (op : AuthOp) (s : OIDCAuthenticator × Connection) :
    (applyOp op s).1.tokenGenID = s.1.tokenGenID ∨
    (applyOp op s).1.tokenGenID = (s.1.tokenGenID + 1) % uint64Mod := by
  cases op with
  | getToken args cb =>
    simpa [applyOp] using getAccessToken_tokenGenID s.1 s.2 args cb
  | invalidate =>
    left; simpa [applyOp] using invalidateAccessToken_tokenGenID s.1 s.2
  | auth conduct azureCb =>
    simpa [applyOp] using Auth_tokenGenID s.1 s.2 conduct azureCb
  | reauth conduct azureCb =>
    simpa [applyOp] using Reauth_tokenGenID s.1 s.2 conduct azureCb
  | setAccessToken tok => left; rfl
  | createSpeculative => left; rfl

/-- Splitting an operation sequence. -/
theorem applyOps_append (l l' : List AuthOp) (s : OIDCAuthenticator × Connection) :
    applyOps (l ++ l') s = applyOps l' (applyOps l s) := by
  unfold applyOps
  exact List.foldl_append _ _ l l'

/-- Unfolding one operation. -/
theorem applyOps_cons (op : AuthOp) (l : List AuthOp)
    (s : OIDCAuthenticator × Connection) :
    applyOps (op :: l) s = applyOps l (applyOp op s) := rfl

/-- The counter always stays below the uint64 modulus. -/
theorem applyOps_tokenGenID_lt (ops : List AuthOp)
    (s0 : OIDCAuthenticator × Connection) (h : s0.1.tokenGenID < uint64Mod) :
    (applyOps ops s0).1.tokenGenID < uint64Mod := by
  induction ops generalizing s0 with
  | nil => exact h
  | cons op rest ih =>
    rw [applyOps_cons]
    apply ih
    rcases applyOp_tokenGenID op s0 with hstep | hstep
    · rwa [hstep]
    · rw [hstep]
      exact Nat.mod_lt _ (by norm_num [uint64Mod])

/-- The state after `k` acquisition/invalidation cycles from a fresh
authenticator: empty cache, counter at `k` modulo 2^64. -/
theorem cycleOps_state (k : Nat) :
    applyOps (cycleOps k) (oaInit, ⟨0⟩) =
      ({ oaInit with tokenGenID := k % uint64Mod }, ⟨0⟩) := by
  induction k with
  | zero => rfl
  | succ k ih =>
    rw [cycleOps, applyOps_append, ih]
    simp [applyOps, applyOp, OIDCAuthenticator.getAccessToken,
      OIDCAuthenticator.invalidateAccessToken, cycleCallback, oaInit,
      Nat.mod_add_mod]

/-- C3 (amended): the counter starts at 0 on construction; invalidation never
changes it; `getAccessToken` performs the uint64 increment exactly on a fresh
successful acquisition, storing the returned token in the same atomic update,
and otherwise leaves the authenticator unchanged; every operation leaves the
counter unchanged or increments it modulo 2^64; hence along any operation
sequence the counter never decreases except by wrapping from 2^64 - 1 to 0. -/
theorem C3_generation_counter :
    (∀ cred oa, newOIDCAuthenticator cred = .ok oa → oa.tokenGenID = 0) ∧
    (∀ s, (applyOp .invalidate s).1.tokenGenID = s.1.tokenGenID) ∧
    (∀ (oa : OIDCAuthenticator) (conn : Connection) (args : OIDCArgs)
        (cb : OIDCCallback),
      (oa.accessToken = "" → ∀ cred, cb args = .ok cred →
        (oa.getAccessToken conn args cb).oa.tokenGenID =
          (oa.tokenGenID + 1) % uint64Mod ∧
        (oa.getAccessToken conn args cb).oa.accessToken = cred.accessToken) ∧
      (oa.accessToken ≠ "" → (oa.getAccessToken conn args cb).oa = oa) ∧
      (∀ e, cb args = .error e → (oa.getAccessToken conn args cb).oa = oa)) ∧
    (∀ op s, (applyOp op s).1.tokenGenID = s.1.tokenGenID ∨
      (applyOp op s).1.tokenGenID = (s.1.tokenGenID + 1) % uint64Mod) ∧
    (∀ (ops : List AuthOp) (s0 : OIDCAuthenticator × Connection),
      s0.1.tokenGenID = 0 → ∀ n, n < ops.length →
      (applyOps (ops.take n) s0).1.tokenGenID ≤
        (applyOps (ops.take (n + 1)) s0).1.tokenGenID ∨
      (applyOps (ops.take n) s0).1.tokenGenID = uint64Mod - 1) := by
  refine ⟨?_, ?_, ?_, applyOp_tokenGenID, ?_⟩
  · intro cred oa hok
    unfold newOIDCAuthenticator at hok
    by_cases hp : cred.password = ""
    · rcases henv : lookupProp cred.props environmentProp with _ | env
      · simp [hp, henv] at hok
        subst hok
        rfl
      · by_cases h1 : asciiToLower env = azureEnvironmentValue ∨
            asciiToLower env = gcpEnvironmentValue
        · by_cases h2 : (lookupProp cred.props resourceProp).isNone
          · simp [hp, henv, h1, h2] at hok
          · by_cases h3 : cred.oidcMachineCallback.isSome ∨
                cred.oidcHumanCallback.isSome
            · simp [hp, henv, h1, h2, h3] at hok
            · simp [hp, henv, h1, h2, h3] at hok
              subst hok
              rfl
        · by_cases h4 : asciiToLower env = testEnvironmentValue
          · by_cases h3 : cred.oidcMachineCallback.isSome ∨
                cred.oidcHumanCallback.isSome
            · simp [hp, henv, h1, h4, h3, azureEnvironmentValue,
                gcpEnvironmentValue, testEnvironmentValue] at hok
            · simp [hp, henv, h1, h4, h3, azureEnvironmentValue,
                gcpEnvironmentValue, testEnvironmentValue] at hok
              subst hok
              rfl
          · simp [hp, henv, h1, h4] at hok
            subst hok
            rfl
    · simp [hp] at hok
  · intro s
    simpa [applyOp] using invalidateAccessToken_tokenGenID s.1 s.2
  · intro oa conn args cb
    refine ⟨fun h cred hcb => ?_, fun h => ?_, fun e hcb => ?_⟩
    · constructor <;> simp [OIDCAuthenticator.getAccessToken, h, hcb]
    · simp [OIDCAuthenticator.getAccessToken, h]
    · by_cases h : oa.accessToken = ""
      · simp [OIDCAuthenticator.getAccessToken, h, hcb]
      · simp [OIDCAuthenticator.getAccessToken, h]
  · intro ops s0 h0 n hn
    have hlt : (applyOps (ops.take n) s0).1.tokenGenID < uint64Mod := by
      apply applyOps_tokenGenID_lt
      rw [h0]
      norm_num [uint64Mod]
    have ha : ops[n]? = some ops[n] := List.getElem?_eq_getElem hn
    have htake : ops.take (n + 1) = ops.take n ++ [ops[n]] := by
      rw [List.take_succ, ha]
      rfl
    rw [htake, applyOps_append]
    have hsingle : applyOps [ops[n]] (applyOps (ops.take n) s0) =
        applyOp ops[n] (applyOps (ops.take n) s0) := rfl
    rw [hsingle]
    rcases applyOp_tokenGenID ops[n] (applyOps (ops.take n) s0) with hstep | hstep
    · left
      rw [hstep]
    · rw [hstep]
      by_cases hwrap : (applyOps (ops.take n) s0).1.tokenGenID + 1 < uint64Mod
      · left
        rw [Nat.mod_eq_of_lt hwrap]
        omega
      · right
        omega

/-- C3 witness: a single invalidation on a fresh state keeps the counter
non-decreasing. -/
theorem C3_generation_counter_witness :
    (applyOps (([AuthOp.invalidate]).take 0) (oaInit, ⟨0⟩)).1.tokenGenID ≤
      (applyOps (([AuthOp.invalidate]).take 1) (oaInit, ⟨0⟩)).1.tokenGenID ∨
    (applyOps (([AuthOp.invalidate]).take 0) (oaInit, ⟨0⟩)).1.tokenGenID =
      uint64Mod - 1 := by
  exact C3_generation_counter.2.2.2.2 [.invalidate] (oaInit, ⟨0⟩) rfl 0
    (by decide)

/-- C3 counterexample: the counter is a Go uint64 and wraps. Within the single
operation sequence `cycleOps (2 ^ 64)` (acquisition/invalidation cycles from a
fresh authenticator — its prefix after 2^64 - 1 cycles extends by one more
cycle), the counter reads 2^64 - 1 and then 0: it is not monotonically
non-decreasing across every sequence of operations. -/
theorem C3_generation_counter_counterexample :
    cycleOps (2 ^ 64) = cycleOps (2 ^ 64 - 1) ++
      [.getToken ⟨apiVersion, none, none⟩ cycleCallback, .invalidate] ∧
    (applyOps (cycleOps (2 ^ 64 - 1)) (oaInit, ⟨0⟩)).1.tokenGenID =
      2 ^ 64 - 1 ∧
    (applyOps (cycleOps (2 ^ 64)) (oaInit, ⟨0⟩)).1.tokenGenID = 0 ∧
    ¬ ((applyOps (cycleOps (2 ^ 64 - 1)) (oaInit, ⟨0⟩)).1.tokenGenID ≤
       (applyOps (cycleOps (2 ^ 64)) (oaInit, ⟨0⟩)).1.tokenGenID) := by
  have hsucc : (2 : Nat) ^ 64 - 1 + 1 = 2 ^ 64 := by norm_num
  have h1 := cycleOps_state (2 ^ 64 - 1)
  have h2 := cycleOps_state (2 ^ 64)
  have e1 : ((2 : Nat) ^ 64 - 1) % uint64Mod = 2 ^ 64 - 1 :=
    Nat.mod_eq_of_lt (by norm_num [uint64Mod])
  have e2 : ((2 : Nat) ^ 64) % uint64Mod = 0 := by
    norm_num [uint64Mod]
  refine ⟨?_, ?_, ?_, ?_⟩
  · nth_rewrite 1 [← hsucc]
    rw [cycleOps]
  · rw [h1]
    exact e1
  · rw [h2]
    exact e2
  · rw [h1, h2]
    simp only [e1, e2]
    norm_num

/-! ## Claim C5: serialized acquisition under concurrency -/

/-- Scheduler steps preserve the number of threads. -/
theorem concStep_length (cfg : ConcConfig) (s : ConcState) (i : Nat) :
    (concStep cfg s i).threads.length = s.threads.length := by
  unfold concStep
  cases h : s.threads.get? i with
  | none => simp
  | some t => simp [List.length_set]

/-- Unfolding one scheduled step. -/
theorem concRun_cons (cfg : ConcConfig) (s : ConcState) (i : Nat)
    (rest : List Nat) :
    concRun cfg s (i :: rest) = concRun cfg (concStep cfg s i) rest := rfl

/-- A whole schedule preserves the number of threads. -/
theorem concRun_length (cfg : ConcConfig) (s : ConcState) (sched : List Nat) :
    (concRun cfg s sched).threads.length = s.threads.length := by
  induction sched generalizing s with
  | nil => rfl
  | cons i rest ih =>
    rw [concRun_cons, ih, concStep_length]

/-- The C5 invariant is preserved by every scheduler step, provided the
callback always succeeds with the fixed non-empty token `tok` and the
conversation accepts `tok`. -/
theorem concStep_inv (cfg : ConcConfig) (tok : String) (cred0 : OIDCCredential)
    (hcb : ∀ a, cfg.cb a = .ok cred0) (hct : cred0.accessToken = tok)
    (htok : tok ≠ "") (hcv : cfg.convOk tok = true)
    (s : ConcState) (hinv : ConcInv tok s) (i : Nat) :
    ConcInv tok (concStep cfg s i) := by
  obtain ⟨hTok, hCalls, hCarry, hPin, hFin⟩ := hinv
  unfold concStep
  cases hget : s.threads.get? i with
  | none => exact ⟨hTok, hCalls, hCarry, hPin, hFin⟩
  | some t =>
    have htmem : t ∈ s.threads := List.get?_mem hget
    cases hph : t.phase with
    | start =>
      by_cases hne : s.oa.accessToken = ""
      · -- snapshot sees an empty cache: move to needToken
        simp only [threadStep, hph, hne, ne_eq, not_true_eq_false, if_false]
        refine ⟨hTok, hCalls, ?_, ?_, ?_⟩
        · intro u hu tk hph'
          rcases List.mem_or_eq_of_mem_set hu with hu | rfl
          · exact hCarry u hu tk hph'
          · rcases hph' with h | h <;> exact Phase.noConfusion h
        · intro u hu hph'
          rcases List.mem_or_eq_of_mem_set hu with hu | rfl
          · exact hPin u hu hph'
          · rcases hph' with ⟨tk, h⟩ | ⟨tk, h⟩ | ⟨b, h⟩ <;> exact Phase.noConfusion h
        · intro u hu b hph'
          rcases List.mem_or_eq_of_mem_set hu with hu | rfl
          · exact hFin u hu b hph'
          · exact Phase.noConfusion hph'
      · -- snapshot sees the token: it is tok; move to fastConv tok
        have htk : s.oa.accessToken = tok := (hTok.resolve_left hne)
        simp only [threadStep, hph, hne, ne_eq, not_false_eq_true, if_true]
        refine ⟨hTok, hCalls, ?_, fun _ _ _ => htk, ?_⟩
        · intro u hu tk hph'
          rcases List.mem_or_eq_of_mem_set hu with hu | rfl
          · exact hCarry u hu tk hph'
          · rcases hph' with h | h
            · injection h with h'
              rw [← h', htk]
            · exact Phase.noConfusion h
        · intro u hu b hph'
          rcases List.mem_or_eq_of_mem_set hu with hu | rfl
          · exact hFin u hu b hph'
          · exact Phase.noConfusion hph'
    | fastConv tk =>
      have htk : tk = tok := hCarry t htmem tk (Or.inl hph)
      have hpin : s.oa.accessToken = tok := hPin t htmem (Or.inl ⟨tk, hph⟩)
      subst htk
      simp only [threadStep, hph, hcv, if_true]
      refine ⟨hTok, hCalls, ?_, fun _ _ _ => hpin, ?_⟩
      · intro u hu tk' hph'
        rcases List.mem_or_eq_of_mem_set hu with hu | rfl
        · exact hCarry u hu tk' hph'
        · rcases hph' with h | h <;> exact Phase.noConfusion h
      · intro u hu b hph'
        rcases List.mem_or_eq_of_mem_set hu with hu | rfl
        · exact hFin u hu b hph'
        · injection hph' with h'
          exact h'.symm
    | needToken =>
      by_cases hc : s.oa.accessToken = ""
      · -- fresh acquisition: the callback runs once and stores tok
        have hcalls0 : s.callbackCalls = 0 := by rw [hCalls, if_pos hc]
        simp only [threadStep, hph, OIDCAuthenticator.getAccessToken, hc, hcb,
          ne_eq, not_true_eq_false, if_false, hcalls0]
        refine ⟨Or.inr hct, ?_, ?_, fun _ _ _ => hct, ?_⟩
        · simp [hct, htok]
        · intro u hu tk' hph'
          rcases List.mem_or_eq_of_mem_set hu with hu | rfl
          · exact hCarry u hu tk' hph'
          · rcases hph' with h | h
            · exact Phase.noConfusion h
            · injection h with h'
              rw [← h', hct]
        · intro u hu b hph'
          rcases List.mem_or_eq_of_mem_set hu with hu | rfl
          · exact hFin u hu b hph'
          · exact Phase.noConfusion hph'
      · -- cache already populated with tok: returned without the callback
        have htk : s.oa.accessToken = tok := (hTok.resolve_left hc)
        simp only [threadStep, hph, OIDCAuthenticator.getAccessToken, hc,
          ne_eq, not_false_eq_true, if_true, Nat.add_zero]
        refine ⟨hTok, hCalls, ?_, fun _ _ _ => htk, ?_⟩
        · intro u hu tk' hph'
          rcases List.mem_or_eq_of_mem_set hu with hu | rfl
          · exact hCarry u hu tk' hph'
          · rcases hph' with h | h
            · exact Phase.noConfusion h
            · injection h with h'
              rw [← h', htk]
        · intro u hu b hph'
          rcases List.mem_or_eq_of_mem_set hu with hu | rfl
          · exact hFin u hu b hph'
          · exact Phase.noConfusion hph'
    | conv tk =>
      have htk : tk = tok := hCarry t htmem tk (Or.inr hph)
      have hpin : s.oa.accessToken = tok := hPin t htmem (Or.inr (Or.inl ⟨tk, hph⟩))
      subst htk
      simp only [threadStep, hph, hcv, if_true]
      refine ⟨hTok, hCalls, ?_, fun _ _ _ => hpin, ?_⟩
      · intro u hu tk' hph'
        rcases List.mem_or_eq_of_mem_set hu with hu | rfl
        · exact hCarry u hu tk' hph'
        · rcases hph' with h | h <;> exact Phase.noConfusion h
      · intro u hu b hph'
        rcases List.mem_or_eq_of_mem_set hu with hu | rfl
        · exact hFin u hu b hph'
        · injection hph' with h'
          exact h'.symm
    | finished b =>
      simp only [threadStep, hph]
      refine ⟨hTok, hCalls, ?_, ?_, ?_⟩
      · intro u hu tk' hph'
        rcases List.mem_or_eq_of_mem_set hu with hu | hequ
        · exact hCarry u hu tk' hph'
        · exact hCarry t htmem tk' (hequ ▸ hph')
      · intro u hu hph'
        rcases List.mem_or_eq_of_mem_set hu with hu | hequ
        · exact hPin u hu hph'
        · exact hPin t htmem (hequ ▸ hph')
      · intro u hu b' hph'
        rcases List.mem_or_eq_of_mem_set hu with hu | hequ
        · exact hFin u hu b' hph'
        · exact hFin t htmem b' (hequ ▸ hph')

/-- The C5 invariant holds after any schedule. -/
theorem concRun_inv (cfg : ConcConfig) (tok : String) (cred0 : OIDCCredential)
    (hcb : ∀ a, cfg.cb a = .ok cred0) (hct : cred0.accessToken = tok)
    (htok : tok ≠ "") (hcv : cfg.convOk tok = true)
    (s : ConcState) (hinv : ConcInv tok s) (sched : List Nat) :
    ConcInv tok (concRun cfg s sched) := by
  induction sched generalizing s with
  | nil => exact hinv
  | cons i rest ih =>
    rw [concRun_cons]
    exact ih _ (concStep_inv cfg tok cred0 hcb hct htok hcv s hinv i)

/-- C5: for any number of concurrent `Auth` calls starting from an empty
cache, under any interleaving (the callback and `getAccessToken` body being
atomic under the lock), if the machine callback always succeeds with the fixed
non-empty token and the conversation accepts that token, then once every call
has finished the callback was invoked exactly once and every call completed
its conversation successfully (with the single acquired token, by the model's
invariant). -/
theorem C5_thundering_herd (cfg : ConcConfig) (tok : String)
    (cred0 : OIDCCredential)
    (hcb : ∀ a, cfg.cb a = .ok cred0) (hct : cred0.accessToken = tok)
    (htok : tok ≠ "") (hcv : cfg.convOk tok = true)
    (s0 : ConcState) (h0oa : s0.oa.accessToken = "")
    (h0calls : s0.callbackCalls = 0)
    (h0threads : ∀ t ∈ s0.threads, t.phase = .start)
    (hN : 0 < s0.threads.length) (sched : List Nat)
    (hdone : ∀ t ∈ (concRun cfg s0 sched).threads, ∃ b, t.phase = .finished b) :
    (concRun cfg s0 sched).callbackCalls = 1 ∧
    ∀ t ∈ (concRun cfg s0 sched).threads, t.phase = .finished true := by
  have hinv0 : ConcInv tok s0 := by
    refine ⟨Or.inl h0oa, by rw [h0calls, if_pos h0oa], ?_, ?_, ?_⟩
    · intro t ht tk hph
      rcases hph with hph | hph <;> rw [h0threads t ht] at hph <;>
        exact Phase.noConfusion hph
    · intro t ht hph
      rcases hph with ⟨tk, hph⟩ | ⟨tk, hph⟩ | ⟨b, hph⟩ <;>
        rw [h0threads t ht] at hph <;> exact Phase.noConfusion hph
    · intro t ht b hph
      rw [h0threads t ht] at hph
      exact Phase.noConfusion hph
  obtain ⟨hTok, hCalls, hCarry, hPin, hFin⟩ :=
    concRun_inv cfg tok cred0 hcb hct htok hcv s0 hinv0 sched
  have hlen : (concRun cfg s0 sched).threads.length = s0.threads.length :=
    concRun_length cfg s0 sched
  have hne : (concRun cfg s0 sched).threads ≠ [] := by
    intro h
    rw [h] at hlen
    simp at hlen
    omega
  obtain ⟨t0, ht0⟩ := List.exists_mem_of_ne_nil _ hne
  obtain ⟨b0, hb0⟩ := hdone t0 ht0
  have htokset : (concRun cfg s0 sched).oa.accessToken = tok :=
    hPin t0 ht0 (Or.inr (Or.inr ⟨b0, hb0⟩))
  constructor
  · rw [hCalls, htokset, if_neg htok]
  · intro t ht
    obtain ⟨b, hb⟩ := hdone t ht
    have hbt := hFin t ht b hb
    rw [hbt] at hb
    exact hb

/-- C5 witness: two concurrent calls on an empty cache, interleaved
round-robin, finish successfully with exactly one callback invocation. -/
theorem C5_thundering_herd_witness :
    let cfg : ConcConfig :=
      { cb := fun _ => .ok ⟨"t", none, none⟩, convOk := fun s => s == "t" }
    let s0 : ConcState :=
      { oa := oaInit, threads := [⟨.start, ⟨0⟩⟩, ⟨.start, ⟨0⟩⟩],
        callbackCalls := 0 }
    (concRun cfg s0 [0, 1, 0, 1, 0, 1]).callbackCalls = 1 ∧
    ∀ t ∈ (concRun cfg s0 [0, 1, 0, 1, 0, 1]).threads,
      t.phase = .finished true := by
  intro cfg s0
  exact C5_thundering_herd cfg "t" ⟨"t", none, none⟩ (fun _ => rfl) rfl
    (by decide) rfl s0 rfl rfl (by decide) (by decide) [0, 1, 0, 1, 0, 1]
    (by decide)
